import Mathlib

/-!
Verification of the OSU micro-benchmark sources
(osu_ireduce_scatter.c, osu_latency_dt.c, osu_multi_lat_dt.c)
against their natural-language specification.

Each definition is a shallow embedding of a fragment of the C sources:
machine integers become Nat (the quantities involved are non-negative
counts and sizes), wall-clock doubles become Rat, and the loops of main
become explicit sums or recursively defined sequences.
-/

set_option autoImplicit false

namespace OSU

/-- Exit code returned on success (stdlib EXIT_SUCCESS). -/
def EXIT_SUCCESS : ℕ := 0

/-- Exit code returned on failure (stdlib EXIT_FAILURE). -/
def EXIT_FAILURE : ℕ := 1

/-!
## ScatterPartition (osu_ireduce_scatter.c, lines 111-125)

The per-rank receive-count array for MPI_Ireduce_scatter.  The C code is

  portion = size / numprocs; remainder = size % numprocs;
  for (i = 0; i < numprocs; i++) \x7b
      recvcounts[i] = 0;
      if (size < numprocs) \x7b if (i < size) recvcounts[i] = 1; \x7d
      else \x7b
          if ((remainder != 0) && (i < remainder)) recvcounts[i] += 1;
          recvcounts[i] += portion;
      \x7d
  \x7d
-/

/-- Entry i of the recvcounts array, as computed by the loop at
osu_ireduce_scatter.c:111-125 for message element count size and
rank count numprocs. -/
def recvcount (size numprocs i : ℕ) : ℕ :=
  if size < numprocs then
    (if i < size then 1 else 0)
  else
    (if size % numprocs ≠ 0 ∧ i < size % numprocs then 1 else 0) + size / numprocs

lemma sum_indicator_lt (R m : ℕ) (h : m ≤ R) :
    (∑ i in Finset.range R, (if i < m then 1 else 0)) = m := by
  have hsub : Finset.range m ⊆ Finset.range R := Finset.range_subset.mpr h
  rw [← Finset.sum_subset hsub (by intro x hx hnx; simp only [Finset.mem_range] at hnx; simp [hnx])]
  have : ∀ i ∈ Finset.range m, (if i < m then (1 : ℕ) else 0) = 1 := by
    intro i hi
    rw [if_pos (Finset.mem_range.mp hi)]
  rw [Finset.sum_congr rfl this]
  simp

/-- C1: for S >= 1 elements and R >= 2 ranks, the ScatterPartition entry i is
floor(S/R)+1 for i < S mod R and floor(S/R) otherwise when S >= R, and it is
1 for i < S and 0 otherwise when S < R; every entry is non-negative and the
R entries sum exactly to S. -/
theorem scatter_partition_spec (S R : ℕ) (hS : 1 ≤ S) (hR : 2 ≤ R) :
    (∀ i, R ≤ S → recvcount S R i = (if i < S % R then S / R + 1 else S / R)) ∧
    (∀ i, S < R → recvcount S R i = (if i < S then 1 else 0)) ∧
    (∀ i, 0 ≤ recvcount S R i) ∧
    (∑ i in Finset.range R, recvcount S R i) = S := by
  refine ⟨?_, ?_, fun i => Nat.zero_le _, ?_⟩
  · intro i h
    unfold recvcount
    rw [if_neg (not_lt.mpr h)]
    by_cases hi : i < S % R
    · rw [if_pos ⟨by omega, hi⟩, if_pos hi]
      exact Nat.add_comm 1 (S / R)
    · rw [if_neg (by tauto), if_neg hi]
      exact Nat.zero_add _
  · intro i h
    unfold recvcount
    rw [if_pos h]
  · by_cases hSR : S < R
    · have h1 : ∀ i ∈ Finset.range R, recvcount S R i = (if i < S then 1 else 0) := by
        intro i _
        unfold recvcount
        rw [if_pos hSR]
      rw [Finset.sum_congr rfl h1, sum_indicator_lt R S (le_of_lt hSR)]
    · have h1 : ∀ i ∈ Finset.range R, recvcount S R i = (if i < S % R then 1 else 0) + S / R := by
        intro i _
        unfold recvcount
        rw [if_neg hSR]
        by_cases hi : i < S % R
        · rw [if_pos ⟨by omega, hi⟩, if_pos hi]
        · rw [if_neg (by tauto), if_neg hi]
      rw [Finset.sum_congr rfl h1, Finset.sum_add_distrib, Finset.sum_const,
        Finset.card_range, sum_indicator_lt R (S % R) (le_of_lt (Nat.mod_lt S (by omega)))]
      rw [smul_eq_mul]
      exact Nat.mod_add_div S R

/-- Witness for scatter_partition_spec at S = 7 elements, R = 3 ranks. -/
theorem scatter_partition_spec_witness :
    (1 ≤ 7 ∧ 2 ≤ 3) ∧ (∑ i in Finset.range 3, recvcount 7 3 i) = 7 :=
  ⟨by decide, (scatter_partition_spec 7 3 (by decide) (by decide)).2.2.2⟩

/-!
## Receive-buffer capacity (osu_ireduce_scatter.c, lines 96-102)

The receive buffer is allocated with
  bufsize = sizeof(float) * (options.max_message_size / numprocs / sizeof(float) + 1)
bytes, i.e. max_message_size / numprocs / 4 + 1 float elements, and the size
loop only visits element counts with size * sizeof(float) <= max_message_size.
-/

/-- Element capacity of the receive buffer allocated at
osu_ireduce_scatter.c:96-97 (sizeof(float) = 4). -/
def recvbufCapacity (maxMsg numprocs : ℕ) : ℕ :=
  maxMsg / numprocs / 4 + 1

/-- C9: for every rank r < R, R >= 2 ranks, and element count S with
S * sizeof(float) <= max_message_size, the partition entry recvcounts[r]
fits in the allocated receive-buffer capacity of
max_message_size / R / sizeof(float) + 1 elements. -/
theorem recv_buffer_capacity (S R r maxMsg : ℕ) (hR : 2 ≤ R) (hr : r < R)
    (hS : S * 4 ≤ maxMsg) :
    recvcount S R r ≤ recvbufCapacity maxMsg R := by
  have h1 : recvcount S R r ≤ S / R + 1 := by
    unfold recvcount
    generalize S % R = m
    generalize S / R = q
    split
    · split <;> omega
    · split <;> omega
  have hS4 : S ≤ maxMsg / 4 := (Nat.le_div_iff_mul_le (by norm_num)).mpr hS
  have h2 : S / R ≤ maxMsg / R / 4 := by
    calc S / R ≤ (maxMsg / 4) / R := Nat.div_le_div_right hS4
      _ = maxMsg / (4 * R) := Nat.div_div_eq_div_mul _ _ _
      _ = maxMsg / (R * 4) := by rw [mul_comm 4 R]
      _ = maxMsg / R / 4 := (Nat.div_div_eq_div_mul _ _ _).symm
  unfold recvbufCapacity
  exact le_trans h1 (Nat.add_le_add_right h2 1)

/-- Witness for recv_buffer_capacity at S = 10, R = 4, r = 1, max = 64. -/
theorem recv_buffer_capacity_witness :
    recvcount 10 4 1 ≤ recvbufCapacity 64 4 :=
  recv_buffer_capacity 10 4 1 64 (by decide) (by decide) (by decide)

/-!
## LayoutDescriptor repeat count (osu_latency_dt.c:122, osu_multi_lat_dt.c:144)

Both pt2pt benchmarks build the derived datatype with
  rep_count = size / options.dt_block_size;
  MPI_Type_vector(rep_count, options.dt_block_size, options.dt_stride_size, ...)
-/

/-- Repeat count of the vector datatype, osu_latency_dt.c:122 and
osu_multi_lat_dt.c:144 (C integer division on non-negative operands). -/
def rep_count (messageSize blockLength : ℕ) : ℕ :=
  messageSize / blockLength

/-- C5: for every message size and valid block length
(1 <= block_length <= stride <= max stride), the repeat count equals
message_size / block_length with the remainder dropped, hence
repeat_count * block_length <= message_size. -/
theorem rep_count_spec (S b stride maxStride : ℕ) (hb : 1 ≤ b) (hbs : b ≤ stride)
    (hsm : stride ≤ maxStride) :
    rep_count S b = S / b ∧ rep_count S b * b ≤ S :=
  ⟨rfl, Nat.div_mul_le_self S b⟩

/-- Witness for rep_count_spec at message size 10, block 3, stride 4, max 8. -/
theorem rep_count_spec_witness :
    rep_count 10 3 = 10 / 3 ∧ rep_count 10 3 * 3 ≤ 10 :=
  rep_count_spec 10 3 4 8 (by decide) (by decide) (by decide)

/-!
## MessageSizeSeries (osu_latency_dt.c:112, osu_ireduce_scatter.c:105-106)

The pt2pt loop header is
  for (size = min; size <= max; size = (size ? size * 2 : 1))
and the collective loop header is
  for (size = min; size * sizeof(float) <= max; size *= 2)
-/

/-- Step function of the pt2pt message-size loop, osu_latency_dt.c:112 and
osu_multi_lat_dt.c:133: size = (size ? size * 2 : 1). -/
def nextSize (s : ℕ) : ℕ :=
  if s = 0 then 1 else s * 2

/-- Step function of the collective message-size loop,
osu_ireduce_scatter.c:105-106: size *= 2. -/
def ireduceNextSize (s : ℕ) : ℕ :=
  s * 2

/-- Sequence of sizes generated by the pt2pt loop from a starting size;
the loop visits the prefix of this sequence whose members do not exceed
the configured maximum. -/
def sizeSeq (start : ℕ) : ℕ → ℕ
  | 0 => start
  | k + 1 => nextSize (sizeSeq start k)

lemma lt_nextSize (s : ℕ) : s < nextSize s := by
  unfold nextSize
  split <;> omega

lemma sizeSeq_strictMono (start : ℕ) : StrictMono (sizeSeq start) :=
  strictMono_nat_of_lt_succ (fun k => lt_nextSize (sizeSeq start k))

/-- C4: the size series is strictly increasing and doubles at each step; a
starting size of 0 steps to exactly one value of 1 before doubling; the
collective loop's step agrees with doubling on every positive size; and
the set of indices whose size is within the configured maximum is a prefix
of the sequence, so the loop stops exactly when the next size would exceed
the maximum. -/
theorem message_size_series_spec (start mx : ℕ) :
    (∀ k, sizeSeq start k < sizeSeq start (k + 1)) ∧
    (∀ k, 1 ≤ sizeSeq start k → sizeSeq start (k + 1) = 2 * sizeSeq start k) ∧
    (sizeSeq 0 1 = 1 ∧ sizeSeq 0 2 = 2) ∧
    (∀ s, 1 ≤ s → ireduceNextSize s = nextSize s) ∧
    (∀ k j, j ≤ k → sizeSeq start k ≤ mx → sizeSeq start j ≤ mx) := by
  refine ⟨fun k => lt_nextSize _, ?_, by decide, ?_, ?_⟩
  · intro k h
    show nextSize _ = _
    unfold nextSize
    rw [if_neg (by omega)]
    ring
  · intro s h
    unfold ireduceNextSize nextSize
    rw [if_neg (by omega)]
  · intro k j hjk hk
    exact le_trans ((sizeSeq_strictMono start).monotone hjk) hk

/-- Witness for message_size_series_spec: from start 0 with maximum 8, the
doubling rule holds at index 1 and index 3 is visited because index 4 is. -/
theorem message_size_series_spec_witness :
    sizeSeq 0 2 = 2 * sizeSeq 0 1 ∧ sizeSeq 0 3 ≤ 8 :=
  ⟨(message_size_series_spec 0 8).2.1 1 (by decide),
   (message_size_series_spec 0 8).2.2.2.2 4 3 (by decide) (by decide)⟩

/-!
## Timing Engine (osu_ireduce_scatter.c:130-165, osu_latency_dt.c:129-141)

Wall-clock doubles are modelled as rationals.  A measurement loop is
abstracted by the function t giving the duration of the timed region of
iteration i; the collective benchmark accumulates timer += t_stop - t_start
under the guard i >= skip, while the pt2pt benchmark records t_start when
i == skip and t_end after the final iteration.
-/

/-- Accumulated timer of the collective measurement loop: iterations + skip
passes, adding the per-iteration time only when i >= skip
(osu_ireduce_scatter.c:130-158). -/
def accumTimer (skip iters : ℕ) (t : ℕ → ℚ) : ℚ :=
  ∑ i in Finset.range (iters + skip), (if skip ≤ i then t i else 0)

/-- Wall-clock reading at the start of iteration n: the sum of the first n
per-iteration durations. -/
def clockAt (t : ℕ → ℚ) (n : ℕ) : ℚ :=
  ∑ i in Finset.range n, t i

/-- Elapsed time measured by the pt2pt loop, which records t_start when
i == skip and t_end after the last iteration (osu_latency_dt.c:129-141). -/
def pt2ptElapsed (skip iters : ℕ) (t : ℕ → ℚ) : ℚ :=
  clockAt t (iters + skip) - clockAt t skip

lemma accumTimer_zero (skip : ℕ) (t : ℕ → ℚ) : accumTimer skip 0 t = 0 := by
  unfold accumTimer
  apply Finset.sum_eq_zero
  intro i hi
  have hi2 := Finset.mem_range.mp hi
  rw [if_neg (by omega)]

lemma accumTimer_succ (skip n : ℕ) (t : ℕ → ℚ) :
    accumTimer skip (n + 1) t = accumTimer skip n t + t (n + skip) := by
  unfold accumTimer
  rw [show n + 1 + skip = (n + skip) + 1 from by omega, Finset.sum_range_succ,
    if_pos (by omega : skip ≤ n + skip)]

lemma accumTimer_eq_measured_sum (skip iters : ℕ) (t : ℕ → ℚ) :
    accumTimer skip iters t = ∑ j in Finset.range iters, t (skip + j) := by
  induction iters with
  | zero => rw [accumTimer_zero]; simp
  | succ n ih =>
    rw [accumTimer_succ, ih, Finset.sum_range_succ, Nat.add_comm skip n]

lemma clockAt_split (skip iters : ℕ) (t : ℕ → ℚ) :
    clockAt t (iters + skip) = clockAt t skip + accumTimer skip iters t := by
  induction iters with
  | zero =>
    rw [accumTimer_zero, add_zero]
    unfold clockAt
    rw [Nat.zero_add]
  | succ n ih =>
    unfold clockAt
    rw [show n + 1 + skip = (n + skip) + 1 from by omega, Finset.sum_range_succ,
      accumTimer_succ]
    unfold clockAt at ih
    rw [ih]
    ring

lemma pt2ptElapsed_eq_accumTimer (skip iters : ℕ) (t : ℕ → ℚ) :
    pt2ptElapsed skip iters t = accumTimer skip iters t := by
  unfold pt2ptElapsed
  rw [clockAt_split]
  ring

/-- C7: warmup (skip) iterations are executed but contribute nothing to
the timing statistics: both accumulation styles equal the sum over the
measured iterations alone, and two runs whose measured per-iteration times
agree produce identical timers regardless of their warmup counts. -/
theorem warmup_discard_spec (skip iters : ℕ) (t tp : ℕ → ℚ) :
    accumTimer skip iters t = (∑ j in Finset.range iters, t (skip + j)) ∧
    pt2ptElapsed skip iters tp = (∑ j in Finset.range iters, tp (skip + j)) ∧
    (∀ skip2 t2, (∀ j, t (skip + j) = t2 (skip2 + j)) →
      accumTimer skip iters t = accumTimer skip2 iters t2) := by
  refine ⟨accumTimer_eq_measured_sum skip iters t,
    by rw [pt2ptElapsed_eq_accumTimer, accumTimer_eq_measured_sum], ?_⟩
  intro skip2 t2 h
  rw [accumTimer_eq_measured_sum, accumTimer_eq_measured_sum]
  exact Finset.sum_congr rfl (fun j _ => h j)

/-- Witness for warmup_discard_spec: one measured iteration observed after
2 warmup passes equals the same measurement observed with no warmup. -/
theorem warmup_discard_spec_witness :
    accumTimer 2 1 (fun i => (i : ℚ)) = accumTimer 0 1 (fun j => ((j : ℚ) + 2)) :=
  (warmup_discard_spec 2 1 (fun i => (i : ℚ)) (fun i => (i : ℚ))).2.2 0
    (fun j => ((j : ℚ) + 2)) (by intro j; push_cast; ring)

/-!
## Mean latency and the MEASURE_OVERLAP pass (osu_ireduce_scatter.c:162-213)

After the latency pass the code computes
  latency_in_secs = timer / options.iterations;
and the overlap pass calls dummy_compute(latency_in_secs, &request) in
every one of its iterations + skip passes.
-/

/-- Mean latency in seconds computed at osu_ireduce_scatter.c:164. -/
def latencyInSecs (skip iters : ℕ) (t : ℕ → ℚ) : ℚ :=
  accumTimer skip iters t / iters

/-- Targets handed to dummy_compute across the MEASURE_OVERLAP pass: the
loop at osu_ireduce_scatter.c:172-213 calls dummy_compute(latency_in_secs)
once in each of its iterations + skip passes. -/
def overlapComputeTargets (skip iters : ℕ) (latSecs : ℚ) : List ℚ :=
  (List.range (iters + skip)).map (fun _ => latSecs)

/-- C2: the mean latency equals the sum of the measured per-iteration total
times divided by the measured iteration count, and exactly this value is
the target passed to dummy_compute in every iteration of the
MEASURE_OVERLAP pass. -/
theorem mean_latency_overlap_spec (skip iters : ℕ) (t : ℕ → ℚ) :
    latencyInSecs skip iters t = (∑ j in Finset.range iters, t (skip + j)) / iters ∧
    overlapComputeTargets skip iters (latencyInSecs skip iters t) =
      List.replicate (iters + skip)
        ((∑ j in Finset.range iters, t (skip + j)) / iters) := by
  have h : latencyInSecs skip iters t
      = (∑ j in Finset.range iters, t (skip + j)) / iters := by
    unfold latencyInSecs
    rw [accumTimer_eq_measured_sum]
  refine ⟨h, ?_⟩
  unfold overlapComputeTargets
  rw [h]
  simp [List.map_const]

/-!
## Reported pt2pt latency (osu_latency_dt.c:152-159, osu_multi_lat_dt.c:189-201)

Rank 0 of osu_latency_dt reports
  latency = (t_end - t_start) * 1e6 / (2.0 * options.iterations);
and osu_multi_lat_dt sums each rank's such latency with a reduction over
all 2*pairs ranks and reports total_lat / (pairs * 2).  Each iteration of
both loops is a full ping-pong: Isend+Wait then Irecv+Wait (or the
mirror order on the partner rank).
-/

/-- One-way latency reported at osu_latency_dt.c:153 and computed per rank
at osu_multi_lat_dt.c:189. -/
def reportedLatency (skip iters : ℕ) (t : ℕ → ℚ) : ℚ :=
  pt2ptElapsed skip iters t * 1000000 / (2 * iters)

/-- Average latency reported at osu_multi_lat_dt.c:191-194: the per-rank
latencies are summed across all 2*pairs ranks and divided by pairs * 2. -/
def multiAvgLatency (pairs : ℕ) (lat : ℕ → ℚ) : ℚ :=
  (∑ r in Finset.range (2 * pairs), lat r) / ((pairs : ℚ) * 2)

/-- C10: the reported value is one-way, not round-trip: it equals the total
measured elapsed time times 1e6 divided by twice the iteration count, and
the multi-pair variant reports the per-rank one-way latencies summed over
all ranks and divided by 2*pairs. -/
theorem one_way_latency_spec (skip iters pairs : ℕ) (t : ℕ → ℚ) (tr : ℕ → ℕ → ℚ) :
    reportedLatency skip iters t
      = (∑ j in Finset.range iters, t (skip + j)) * 1000000 / (2 * iters) ∧
    multiAvgLatency pairs (fun r => reportedLatency skip iters (tr r))
      = (∑ r in Finset.range (2 * pairs),
          (∑ j in Finset.range iters, tr r (skip + j)) * 1000000 / (2 * iters))
        / ((2 : ℚ) * pairs) := by
  have h1 : ∀ d : ℕ → ℚ, reportedLatency skip iters d
      = (∑ j in Finset.range iters, d (skip + j)) * 1000000 / (2 * iters) := by
    intro d
    unfold reportedLatency
    rw [pt2ptElapsed_eq_accumTimer, accumTimer_eq_measured_sum]
  refine ⟨h1 t, ?_⟩
  unfold multiAvgLatency
  rw [Finset.sum_congr rfl (fun r _ => h1 (tr r)), mul_comm (pairs : ℚ) 2]

/-!
## Startup layout validation (osu_latency_dt.c:33-38, osu_multi_lat_dt.c:31-36)

Both pt2pt benchmarks run, once, before MPI_Init and before any benchmark
round:
  if (options.dt_block_size > options.dt_stride_size ||
      options.dt_block_size > MAX_DT_BLOCK_SIZE ||
      options.dt_stride_size > MAX_DT_STRIDE_SIZE) po_ret = PO_BAD_USAGE;
and the switch on po_ret later exits with EXIT_FAILURE on PO_BAD_USAGE.
-/

/-- Result of option processing, as consumed by the startup switch. -/
inductive PoRet
  | okay
  | badUsage
  | helpMessage
  | versionMessage
deriving DecidableEq

/-- Sanity check at osu_latency_dt.c:33-38 and osu_multi_lat_dt.c:31-36,
applied exactly once to the option-processing result before the loop. -/
def layoutSanityCheck (poRet : PoRet) (blockSize strideSize maxBlock maxStride : ℕ) : PoRet :=
  if strideSize < blockSize ∨ maxBlock < blockSize ∨ maxStride < strideSize then
    PoRet.badUsage
  else poRet

/-- Startup outcome of the pt2pt benchmarks: the switch at
osu_latency_dt.c:80-92 exits with EXIT_FAILURE on bad usage, exits with
EXIT_SUCCESS for help or version requests, and otherwise proceeds into the
benchmark loop (none). -/
def startupExitAfterCheck (poRet : PoRet) (blockSize strideSize maxBlock maxStride : ℕ) : Option ℕ :=
  match layoutSanityCheck poRet blockSize strideSize maxBlock maxStride with
  | PoRet.badUsage => some EXIT_FAILURE
  | PoRet.helpMessage => some EXIT_SUCCESS
  | PoRet.versionMessage => some EXIT_SUCCESS
  | PoRet.okay => none

/-- C6: when option processing itself succeeded, the startup (performed
once, before any benchmark round) aborts with the bad-usage failure exit
if and only if block_length > stride, block_length > max block size, or
stride > max stride size; otherwise the run proceeds to the loop. -/
theorem layout_validation_spec (blockSize strideSize maxBlock maxStride : ℕ) :
    (startupExitAfterCheck PoRet.okay blockSize strideSize maxBlock maxStride
        = some EXIT_FAILURE
      ↔ (strideSize < blockSize ∨ maxBlock < blockSize ∨ maxStride < strideSize)) ∧
    (startupExitAfterCheck PoRet.okay blockSize strideSize maxBlock maxStride = none
      ↔ (blockSize ≤ strideSize ∧ blockSize ≤ maxBlock ∧ strideSize ≤ maxStride)) := by
  unfold startupExitAfterCheck layoutSanityCheck
  by_cases h : strideSize < blockSize ∨ maxBlock < blockSize ∨ maxStride < strideSize
  · rw [if_pos h]
    exact ⟨⟨fun _ => h, fun _ => rfl⟩,
      ⟨fun hc => Option.noConfusion hc, fun hc => absurd h (by omega)⟩⟩
  · rw [if_neg h]
    exact ⟨⟨fun hc => Option.noConfusion hc, fun hc => absurd hc h⟩,
      ⟨fun _ => by omega, fun _ => rfl⟩⟩

/-!
## Process exit codes (osu_ireduce_scatter.c:73-79, 85-101, 248-254;
osu_latency_dt.c:94-107)

osu_ireduce_scatter exits EXIT_FAILURE when numprocs < 2, aborts with
EXIT_FAILURE when an allocation fails, and at the end executes
  if (0 != errors && options.validate && 0 == rank) exit(EXIT_FAILURE);
  return EXIT_SUCCESS;
osu_latency_dt exits EXIT_FAILURE when numprocs != 2 or allocation fails.
-/

/-- Exit code of a completed osu_ireduce_scatter run as a function of the
rank count, this process's rank, allocation success, whether validation is
enabled, and the final global error count. -/
def ireduceScatterExitCode (numprocs rank : ℕ) (allocOk validate : Bool) (errors : ℕ) : ℕ :=
  if numprocs < 2 then EXIT_FAILURE
  else if allocOk = false then EXIT_FAILURE
  else if errors ≠ 0 ∧ validate = true ∧ rank = 0 then EXIT_FAILURE
  else EXIT_SUCCESS

/-- Exit code of a completed osu_latency_dt run as a function of the rank
count and allocation success. -/
def latencyDtExitCode (numprocs : ℕ) (allocOk : Bool) : ℕ :=
  if numprocs ≠ 2 then EXIT_FAILURE
  else if allocOk = false then EXIT_FAILURE
  else EXIT_SUCCESS

/-- C3 counterexample: with 2 ranks, validation enabled and a global error
count of 1, the non-root rank 1 of the reduce-scatter benchmark exits with
code 0, not non-zero: the final validation exit at
osu_ireduce_scatter.c:248 is guarded by rank == 0. -/
theorem exit_code_counterexample :
    ireduceScatterExitCode 2 1 true true 1 = 0 := by decide

/-- C3 amended: a process exits 0 exactly when the rank-count requirement
holds (at least 2 for reduce-scatter, exactly 2 for pt2pt), allocation
succeeded, and, if validation is enabled with a non-zero global error
count, the process is not rank 0; rank 0 alone exits non-zero on a
validation failure. -/
theorem exit_code_spec (numprocs rank : ℕ) (allocOk validate : Bool) (errors : ℕ) :
    (ireduceScatterExitCode numprocs rank allocOk validate errors = EXIT_SUCCESS
      ↔ (2 ≤ numprocs ∧ allocOk = true
          ∧ (errors = 0 ∨ validate = false ∨ rank ≠ 0))) ∧
    (latencyDtExitCode numprocs allocOk = EXIT_SUCCESS
      ↔ (numprocs = 2 ∧ allocOk = true)) := by
  cases allocOk <;> cases validate <;>
    simp only [ireduceScatterExitCode, latencyDtExitCode, EXIT_SUCCESS, EXIT_FAILURE] <;>
    split_ifs <;> simp_all <;> omega

/-!
## ValidationOutcome lifecycle (osu_ireduce_scatter.c:22, 150-155, 215-229)

The per-rank counter local_errors is declared once in main and accumulated
across the entire run; it is never cleared inside the size loop.  Each
round ends with MPI_Allreduce of local_errors into errors, and the loop
breaks at the first round whose global count is non-zero.
-/

/-- Value of local_errors on rank r when round k begins: the mismatches
this rank detected in all earlier rounds, m q r being the count round q
adds on rank r (the variable is never reset inside the size loop). -/
def localErrorsAtRoundStart (m : ℕ → ℕ → ℕ) (k r : ℕ) : ℕ :=
  ∑ q in Finset.range k, m q r

/-- Global error count produced by the Allreduce at the end of round k over
R ranks (osu_ireduce_scatter.c:215-218). -/
def globalErrorsAtRound (R : ℕ) (m : ℕ → ℕ → ℕ) (k : ℕ) : ℕ :=
  ∑ r in Finset.range R, (localErrorsAtRoundStart m k r + m k r)

/-- C8: in every execution that reaches round k (the break at
osu_ireduce_scatter.c:227-229 stops the loop at the first non-zero global
count, so all earlier rounds were clean), each rank's error count is zero
when the round starts, and the global count aggregated for round k counts
exactly the mismatches detected during that round. -/
theorem validation_round_errors_spec (R : ℕ) (m : ℕ → ℕ → ℕ) (k : ℕ)
    (hreach : ∀ q, q < k → globalErrorsAtRound R m q = 0) :
    (∀ r, r < R → localErrorsAtRoundStart m k r = 0) ∧
    globalErrorsAtRound R m k = ∑ r in Finset.range R, m k r := by
  have hm : ∀ q, q < k → ∀ r, r < R → m q r = 0 := by
    intro q hq r hr
    have h0 := (Finset.sum_eq_zero_iff.mp (hreach q hq)) r (Finset.mem_range.mpr hr)
    omega
  have hloc : ∀ r, r < R → localErrorsAtRoundStart m k r = 0 := by
    intro r hr
    unfold localErrorsAtRoundStart
    apply Finset.sum_eq_zero
    intro q hq
    exact hm q (Finset.mem_range.mp hq) r hr
  refine ⟨hloc, ?_⟩
  unfold globalErrorsAtRound
  apply Finset.sum_congr rfl
  intro r hr
  rw [hloc r (Finset.mem_range.mp hr), Nat.zero_add]

/-- Witness for validation_round_errors_spec: two ranks, a clean round 0,
and a round 1 in which rank 1 detects three mismatches. -/
theorem validation_round_errors_spec_witness :
    globalErrorsAtRound 2 (fun q r => if q = 0 then 0 else 3 * r) 1
      = ∑ r in Finset.range 2, (if (1 : ℕ) = 0 then 0 else 3 * r) :=
  (validation_round_errors_spec 2 (fun q r => if q = 0 then 0 else 3 * r) 1
    (by decide)).2

end OSU
